import Mathlib

/-!
Shallow embedding of `sysinfo.py` (originell/sysinfo), a Python 2 hardware
and software information collector.  The four text parsers (RAM.info,
CPU.info, System.lspci, X.infos) and the two environment-dependent helpers
(System.uptime, CPU.maxfreq) are translated from the source into executable
Lean definitions.  Raw text is handled as `List Char`; file / process
acquisition is abstracted by passing the captured text (resp. an existence
flag) as an argument, exactly as the parsers receive it in the source.
Python exceptions (IndexError, KeyError, ValueError, TypeError) are
modelled by `Except Unit`.
-/

set_option maxRecDepth 8000

/-! ### Character-level utilities (Python 2 `str` semantics, ASCII) -/

/-- Python whitespace characters (`string.whitespace`, also regex `\s`
for a Python 2 byte string without `re.UNICODE`). -/
def isPySpace (c : Char) : Bool :=
  c = ' ' || c = '\t' || c = '\n' || c = '\x0d' || c = '\x0b' || c = '\x0c'

/-- `str.lower()` on a Python 2 byte string lower-cases ASCII letters. -/
def lowerL (l : List Char) : List Char :=
  l.map Char.toLower

/-- `str.lstrip()` with no argument: drop leading whitespace. -/
def pyLstrip (l : List Char) : List Char :=
  l.dropWhile isPySpace

/-- `str.strip()` with no argument: drop whitespace on both ends
(used implicitly by `int()` / `float()`). -/
def stripWs (l : List Char) : List Char :=
  ((l.dropWhile isPySpace).reverse.dropWhile isPySpace).reverse

/-- Numeric value of a list of decimal digit characters. -/
def digitsToNat (l : List Char) : Nat :=
  l.foldl (fun a c => 10 * a + (c.toNat - 48)) 0

/-- Python 2 `int(s)`: optional surrounding whitespace, an optional single
sign, then one or more decimal digits; anything else raises `ValueError`
(modelled as `none`). -/
def pyInt? (s : List Char) : Option Int :=
  let core : List Char → Option Nat := fun ds =>
    if ds ≠ [] ∧ ds.all Char.isDigit then some (digitsToNat ds) else none
  match stripWs s with
  | '-' :: ds => (core ds).map (fun n => -(n : Int))
  | '+' :: ds => (core ds).map (fun n => (n : Int))
  | ds => (core ds).map (fun n => (n : Int))

/-- `str.split(sep)` for a one-character separator `sep`
(Python keeps empty pieces; `"".split(c) = [""]`). -/
def splitOn1 (sep : Char) : List Char → List (List Char)
  | [] => [[]]
  | c :: rest =>
    if c = sep then [] :: splitOn1 sep rest
    else
      match splitOn1 sep rest with
      | [] => [[c]]
      | g :: gs => (c :: g) :: gs

/-- `str.split(ab)` for the two-character separator `⟨a, b⟩`, scanning left
to right with non-overlapping cuts, as Python does. -/
def splitOnPair (a b : Char) : List Char → List (List Char)
  | [] => [[]]
  | [c] => [[c]]
  | c1 :: c2 :: rest =>
    if c1 = a ∧ c2 = b then [] :: splitOnPair a b rest
    else
      match splitOnPair a b (c2 :: rest) with
      | [] => [[c1]]
      | g :: gs => (c1 :: g) :: gs

/-- `str.replace(' kB', '')`: delete every (non-overlapping, left-to-right)
occurrence of the three characters `' kB'`.  The pattern cannot overlap
itself, so the literal pattern-match below is exactly Python's scan. -/
def removeKB : List Char → List Char
  | ' ' :: 'k' :: 'B' :: rest => removeKB rest
  | c :: rest => c :: removeKB rest
  | [] => []

/-- `str.count('processor\t:')`: Python counts non-overlapping occurrences
left to right; this pattern cannot overlap itself ('p' occurs only at its
head), so counting by the literal match below is exact. -/
def countProcessor : List Char → Nat
  | 'p' :: 'r' :: 'o' :: 'c' :: 'e' :: 's' :: 's' :: 'o' :: 'r' :: '\t' :: ':' :: rest =>
    countProcessor rest + 1
  | _ :: rest => countProcessor rest
  | [] => 0

/-- `str.split()` with no argument: split on runs of whitespace,
discarding empty pieces. -/
def splitWsAux : List Char → List Char → List (List Char)
  | [], acc => if acc = [] then [] else [acc.reverse]
  | c :: rest, acc =>
    if isPySpace c then
      if acc = [] then splitWsAux rest [] else acc.reverse :: splitWsAux rest []
    else splitWsAux rest (c :: acc)

def splitWs (l : List Char) : List (List Char) :=
  splitWsAux l []

/-- Python `float(s)` restricted to the plain decimal forms produced by the
`/proc` pseudo-files and `cpuinfo_max_freq` (optional sign, digits with an
optional fractional part); the exotic forms (exponents, `inf`, `nan`) never
occur in those sources and are omitted.  The value is represented exactly
as a rational. -/
def pyFloat? (s : List Char) : Option Rat :=
  let core : List Char → Option Rat := fun ds =>
    match splitOn1 '.' ds with
    | [ip] =>
      if ip ≠ [] ∧ ip.all Char.isDigit then some ((digitsToNat ip : Rat)) else none
    | [ip, fp] =>
      if (ip ≠ [] ∨ fp ≠ []) ∧ ip.all Char.isDigit ∧ fp.all Char.isDigit then
        some ((digitsToNat ip : Rat) + (digitsToNat fp : Rat) / ((10 : Rat) ^ fp.length))
      else none
    | _ => none
  match stripWs s with
  | '-' :: ds => (core ds).map Neg.neg
  | '+' :: ds => core ds
  | ds => core ds

/-! ### Ordered dictionaries (Python `dict`: insertion order, assignment
overwrites in place) -/

/-- `d[k] = v` on a Python dict: overwrite the existing binding in place,
else append a new one. -/
def dictSet {κ α : Type} [DecidableEq κ] (d : List (κ × α)) (k : κ) (v : α) :
    List (κ × α) :=
  match d with
  | [] => [(k, v)]
  | (k0, v0) :: rest => if k0 = k then (k, v) :: rest else (k0, v0) :: dictSet rest k v

/-- `d[k]` lookup (`none` models `KeyError`). -/
def dictGet {κ α : Type} [DecidableEq κ] (d : List (κ × α)) (k : κ) : Option α :=
  match d with
  | [] => none
  | (k0, v0) :: rest => if k0 = k then some v0 else dictGet rest k

/-! ### A small executable regex engine

The source uses four fixed regular expressions, all of which are linear
sequences of literal characters, single-character classes and quantified
single-character classes, with capture groups.  The matcher below performs
standard leftmost backtracking (greedy quantifiers try longest first, lazy
ones shortest first), which is exactly Python `re.match` semantics for such
patterns.  Recursion is on an explicit fuel that starts strictly above the
pattern length and decreases in lockstep with it, so it never runs out. -/

/-- Character classes occurring in the source patterns (Python 2 byte
strings, so `\w`, `\s`, `\d` are ASCII). -/
inductive CCls : Type
  | dot       -- `.`  : any character except newline
  | digit     -- `\d` : [0-9]
  | space     -- `\s` : whitespace
  | nonspace  -- `\S`
  | word      -- `\w` : [a-zA-Z0-9_]
  deriving DecidableEq

def CCls.test : CCls → Char → Bool
  | .dot, c => c ≠ '\n'
  | .digit, c => c.isDigit
  | .space, c => isPySpace c
  | .nonspace, c => !isPySpace c
  | .word, c => c.isAlpha || c.isDigit || c = '_'

/-- One element of a linearised regular expression. -/
inductive RItem : Type
  | lit (c : Char)                              -- a literal character
  | cls (cl : CCls)                             -- exactly one class character
  | rep (cl : CCls) (mn : Nat) (greedy : Bool)  -- `cl{mn,}`; `+` is mn = 1, `*` is mn = 0
  | openG (i : Nat)                             -- `(` of capture group i
  | closeG (i : Nat)                            -- `)` of capture group i
  deriving DecidableEq

/-- Candidate repetition counts in backtracking preference order. -/
def countsFor (greedy : Bool) (mn mx : Nat) : List Nat :=
  let base := (List.range (mx + 1 - mn)).map (· + mn)
  if greedy then base.reverse else base

/-- First success of `f` over a list of candidates. -/
def firstSome {α : Type} (f : Nat → Option α) : List Nat → Option α
  | [] => none
  | n :: ns =>
    match f n with
    | some r => some r
    | none => firstSome f ns

/-- Backtracking matcher.  Arguments: fuel, remaining pattern, remaining
input, current input position, stack of open groups `(index, start)`,
finished captures `(index, start, stop)`.  Succeeds with the captures of
the first match in backtracking order; the end of the pattern accepts
without consuming the rest of the input (`re.match` is only anchored at
the start). -/
def matchSeq : Nat → List RItem → List Char → Nat → List (Nat × Nat) →
    List (Nat × Nat × Nat) → Option (List (Nat × Nat × Nat))
  | 0, _, _, _, _, _ => none
  | _ + 1, [], _, _, _, caps => some caps
  | fuel + 1, .lit c :: ps, s, pos, opens, caps =>
    match s with
    | [] => none
    | c0 :: s0 => if c0 = c then matchSeq fuel ps s0 (pos + 1) opens caps else none
  | fuel + 1, .cls cl :: ps, s, pos, opens, caps =>
    match s with
    | [] => none
    | c0 :: s0 => if cl.test c0 then matchSeq fuel ps s0 (pos + 1) opens caps else none
  | fuel + 1, .rep cl mn greedy :: ps, s, pos, opens, caps =>
    firstSome (fun n => matchSeq fuel ps (s.drop n) (pos + n) opens caps)
      (countsFor greedy mn (s.takeWhile cl.test).length)
  | fuel + 1, .openG i :: ps, s, pos, opens, caps =>
    matchSeq fuel ps s pos ((i, pos) :: opens) caps
  | fuel + 1, .closeG _ :: ps, s, pos, opens, caps =>
    match opens with
    | [] => none
    | (j, st) :: opens0 => matchSeq fuel ps s pos opens0 ((j, st, pos) :: caps)

/-- `re.match(pattern, s)`: anchored at the start of `s`. -/
def reMatch (p : List RItem) (s : List Char) : Option (List (Nat × Nat × Nat)) :=
  matchSeq (p.length + 1) p s 0 [] []

/-- `m.group(i)` as a character list (each group of the source patterns
captures exactly once per match). -/
def capChars (s : List Char) (caps : List (Nat × Nat × Nat)) (i : Nat) : List Char :=
  match caps.find? (fun t => t.1 = i) with
  | some (_, a, b) => (s.drop a).take (b - a)
  | none => []

/-- `m.group(i)` as a `String`. -/
def capStr (s : List Char) (caps : List (Nat × Nat × Nat)) (i : Nat) : String :=
  ⟨capChars s caps i⟩

/-! ### The source's regular expressions, linearised -/

/-- `re.match(r'(.+?) (.+): (.+) \((.*)\)', device)` from `System.lspci`. -/
def lspciRe : List RItem :=
  [.openG 1, .rep .dot 1 false, .closeG 1, .lit ' ',
   .openG 2, .rep .dot 1 true, .closeG 2, .lit ':', .lit ' ',
   .openG 3, .rep .dot 1 true, .closeG 3, .lit ' ', .lit '(',
   .openG 4, .rep .dot 0 true, .closeG 4, .lit ')']

/-- `re.match(r'(\S.+):\s+(.+)', x)` from `X.infos` (generic top-level line). -/
def genericRe : List RItem :=
  [.openG 1, .cls .nonspace, .rep .dot 1 true, .closeG 1, .lit ':',
   .rep .space 1 true, .openG 2, .rep .dot 1 true, .closeG 2]

/-- `re.match(r'screen #(\d+)', x)` from `X.infos` (screen-marker line). -/
def screenRe : List RItem :=
  [.lit 's', .lit 'c', .lit 'r', .lit 'e', .lit 'e', .lit 'n', .lit ' ', .lit '#',
   .openG 1, .rep .digit 1 true, .closeG 1]

/-- `re.match(r'\s{2}(\w+.*):\s+(.*)', x)` from `X.infos` (indented sub-line). -/
def scrdetailsRe : List RItem :=
  [.cls .space, .cls .space, .openG 1, .rep .word 1 true, .rep .dot 0 true, .closeG 1,
   .lit ':', .rep .space 1 true, .openG 2, .rep .dot 0 true, .closeG 2]

/-! ### RAM — the meminfo processor

`RAM.__init__` stores an open file object (`self.meminfo_raw = open(...)`);
`RAM.info` iterates it: `for y in self.meminfo_raw: x = y.split(':');
meminfos[x[0].lower()] = int(x[1].lstrip().replace(' kB', ''))`.
The retained file iterator is modelled as the list of lines not yet
consumed; a call returns the parse outcome together with the lines still
unread afterwards (a Python `for` over a file advances the iterator even
when the body raises mid-way). -/

namespace RAM

/-- One iteration of the loop body on line `y` (without its newline, which
is irrelevant here: `int()` strips trailing whitespace, and the colon test
is unaffected).  `x[1]` missing models the `IndexError` on a colon-less
line; a value `int()` cannot parse models the `ValueError`. -/
def step (d : List (String × Int)) (y : List Char) : Except Unit (List (String × Int)) :=
  match splitOn1 ':' y with
  | [] => .error ()        -- unreachable: split never returns an empty list
  | [_] => .error ()       -- IndexError: x[1] on a line without a colon
  | k :: v :: _ =>
    match pyInt? (removeKB (pyLstrip v)) with
    | some n => .ok (dictSet d ⟨lowerL k⟩ n)
    | none => .error ()    -- ValueError from int()

/-- The `for` loop of `RAM.info`, returning the outcome and the lines the
file iterator has not yet yielded. -/
def go : List String → List (String × Int) →
    Except Unit (List (String × Int)) × List String
  | [], acc => (.ok acc, [])
  | y :: rest, acc =>
    match step acc y.data with
    | .error e => (.error e, rest)
    | .ok acc2 => go rest acc2

/-- `RAM.info()`: `st` is the retained file iterator's remaining lines. -/
def info (st : List String) : Except Unit (List (String × Int)) × List String :=
  go st []

end RAM

/-! ### CPU — the cpuinfo processor

`CPU.__init__` reads the whole file into the string `self.cpufile`;
`count` counts the sentinel `'processor\t:'`; `info` splits the text into
`(key, value)` pairs and distributes them over `count()` records, mutating
the pair list while iterating it (`infs.remove(inf)` inside
`for inf in infs`).  Python's list iterator walks by index over the
mutating list, which the explicit index `k` below reproduces; `fill` uses
a fuel that starts above the pool size, which bounds the iteration count
(`k` grows by one per step and the pool never grows), so fuel exhaustion
coincides with the natural `k ≥ len` exit. -/

namespace CPU

/-- `CPU.count()`: occurrences of `'processor\t:'` in the raw text. -/
def count (raw : String) : Nat :=
  countProcessor raw.data

/-- `[x.split(': ') for x in self.cpufile.replace('\t', '').split('\n')][:-2]`. -/
def infs (raw : String) : List (List (List Char)) :=
  ((((raw.data.filter (fun c => c ≠ '\t'))
    |> splitOn1 '\n').map (splitOnPair ':' ' ')).dropLast).dropLast

/-- The inner `for inf in infs` of `CPU.info`, filling one record:
`infs[k]` is the iterator's next element; a pair with a non-empty key is
written into the record (`inf[1]` raising `IndexError` when absent) and
removed from the pool (first occurrence, by value — `infs.remove(inf)`);
an empty key breaks. -/
def fill : Nat → List (List (List Char)) → Nat → List (String × String) →
    Except Unit (List (String × String) × List (List (List Char)))
  | 0, infs, _, rec => .ok (rec, infs)
  | fuel + 1, infs, k, rec =>
    match infs.get? k with
    | none => .ok (rec, infs)                 -- iterator exhausted
    | some inf =>
      if inf.headI ≠ [] then                  -- inf[0] != ''
        match inf.get? 1 with
        | none => .error ()                   -- IndexError: inf[1]
        | some v =>
          fill fuel (infs.erase inf) (k + 1)
            (dictSet rec ⟨pyLstrip (lowerL inf.headI)⟩ ⟨v⟩)
      else .ok (rec, infs)                    -- break

/-- The outer `for i in xrange(cpus)` of `CPU.info`: one fresh record is
appended per index. -/
def loop : Nat → List (List (List Char)) →
    List (List (String × String)) → Except Unit (List (List (String × String)))
  | 0, _, acc => .ok acc
  | n + 1, pool, acc =>
    match fill (pool.length + 1) pool 0 [] with
    | .error e => .error e
    | .ok (rec, pool2) => loop n pool2 (acc ++ [rec])

/-- `CPU.info()` on the retained raw text. -/
def info (raw : String) : Except Unit (List (List (String × String))) :=
  loop (count raw) (infs raw) []

/-- The call pair of the CPU object: result together with the (immutable)
retained text. -/
def call (cpufile : String) :
    Except Unit (List (List (String × String))) × String :=
  (info cpufile, cpufile)

end CPU

/-! ### Scalar values and the X report structure -/

/-- A Python scalar as produced by the `try: int(...) except ValueError:`
coercion in `X.infos`. -/
inductive Scalar : Type
  | int (n : Int)
  | str (s : String)
  deriving DecidableEq

/-- `try: int(v) except ValueError: v`. -/
def coerce (v : List Char) : Scalar :=
  match pyInt? v with
  | some n => .int n
  | none => .str ⟨v⟩

/-- A value of the `xinfos` dict: a scalar, or the list bound to the
`'screens'` key. -/
inductive XVal : Type
  | scalar (v : Scalar)
  | screens (l : List (List (String × Scalar)))
  deriving DecidableEq

/-! ### System — uname/uptime/load/lspci -/

namespace System

/-- A `datetime.timedelta`, carrying its seconds exactly. -/
structure Timedelta : Type where
  seconds : Rat
  deriving DecidableEq

/-- `System.uptime()`: `present` models `os.path.exists(UPTIME_PATH)` and
`content` the file's text.  When the file is absent the method falls off
the end (returns `None`); otherwise `float()` of the first
whitespace-separated token becomes the `timedelta` (an empty file raises
`IndexError`, an unparsable token `ValueError`). -/
def uptime (present : Bool) (content : String) : Except Unit (Option Timedelta) :=
  if present then
    match splitWs content.data with
    | [] => .error ()
    | t :: _ =>
      match pyFloat? t with
      | none => .error ()
      | some q => .ok (some ⟨q⟩)
  else .ok none

/-- One parsed lspci line. -/
structure PciDev : Type where
  id : String
  type : String
  name : String
  rev : String
  deriving DecidableEq

/-- `System.lspci()` applied to the captured standard output of `lspci`:
split on newlines, keep the lines matching the pattern, one record per
match with the four capture groups. -/
def lspci (raw : String) : List PciDev :=
  (splitOn1 '\n' raw.data).filterMap fun dev =>
    (reMatch lspciRe dev).map fun caps =>
      { id := capStr dev caps 1, type := capStr dev caps 2,
        name := capStr dev caps 3, rev := capStr dev caps 4 }

end System

/-! ### CPU.maxfreq -/

namespace CPU

/-- `CPU.maxfreq` returns either a tuple of per-core frequencies or the
boolean `False`; the heterogeneous Python return is a sum. -/
inductive MaxfreqResult : Type
  | freqs (l : List Rat)
  | noSupport          -- the literal `return False`
  deriving DecidableEq

/-- `CPU.maxfreq()`: `hasDir` models `os.path.exists(CPUFREQ_DIR)`
(`has_cpufreqd`), `raw` the retained cpuinfo text (for `count()`), and
`readFreq i` the content of `cpu<i>/cpufreq/cpuinfo_max_freq`.  Each file
is parsed with `float()` and divided by 1024.00 (exact rational division
models the float arithmetic on these small decimal values). -/
def maxfreq (hasDir : Bool) (raw : String) (readFreq : Nat → String) :
    Except Unit MaxfreqResult :=
  if hasDir then
    match (List.range (count raw)).mapM (fun i => pyFloat? (readFreq i).data) with
    | some l => .ok (.freqs (l.map (fun q => q / 1024)))
    | none => .error ()   -- ValueError from float()
  else .ok .noSupport

end CPU

/-! ### X — the Xserver information collector

`X.infos` folds a three-pattern state machine over the lines of the
captured `xdpyinfo` output.  The running state is the `xinfos` dict and
`curr_scr`.  All three `re.match` tests run on every line (they are
independent `if`s in the source).  In the sub-line branch the source does
`try: xinfos['screens'][curr_scr] / except IndexError: append({}) /
finally: xinfos['screens'][curr_scr][key] = coerced value`; a missing
`'screens'` key (KeyError), a non-list value under it (TypeError /
AttributeError) and an index still out of range after the single append
(IndexError inside `finally`) all propagate, which `Except.error`
models. -/

namespace X

structure State : Type where
  xinfos : List (String × XVal)
  curr : Nat
  deriving DecidableEq

/-- Processing of one line of the report. -/
def step (st : State) (x : List Char) : Except Unit State :=
  let st1 :=
    match reMatch genericRe x with
    | some caps =>
      let v1 := XVal.scalar (coerce (capChars x caps 2))
      { st with xinfos := dictSet st.xinfos (capStr x caps 1) v1 }
    | none => st
  let st2 :=
    match reMatch screenRe x with
    | some caps =>
      { st1 with xinfos := dictSet st1.xinfos "screens" (XVal.screens []),
                 curr := digitsToNat (capChars x caps 1) }
    | none => st1
  match reMatch scrdetailsRe x with
  | none => .ok st2
  | some caps =>
    let k := capStr x caps 1
    let v := capChars x caps 2
    match dictGet st2.xinfos "screens" with
    | none => .error ()                 -- KeyError: xinfos['screens']
    | some (XVal.scalar _) => .error () -- non-list under 'screens': subscript fails
    | some (XVal.screens l) =>
      let l1 := if st2.curr < l.length then l else l ++ [[]]  -- except IndexError: one append
      match l1.get? st2.curr with
      | none => .error ()               -- IndexError inside the finally block
      | some r =>
        let l2 := XVal.screens (l1.set st2.curr (dictSet r k (coerce v)))
        .ok { st2 with xinfos := dictSet st2.xinfos "screens" l2 }

/-- The fold of `X.infos` over the report lines. -/
def go : List (List Char) → State → Except Unit State
  | [], st => .ok st
  | x :: rest, st =>
    match step st x with
    | .error e => .error e
    | .ok st2 => go rest st2

/-- `X.infos()` applied to the captured standard output of `xdpyinfo`. -/
def infos (raw : String) : Except Unit (List (String × XVal)) :=
  (go (splitOn1 '\n' raw.data) ⟨[], 0⟩).map State.xinfos

end X

/-! ### Helper lemmas -/

theorem splitOn1_of_not_mem (sep : Char) (y : List Char) (h : sep ∉ y) :
    splitOn1 sep y = [y] := by
  induction y with
  | nil => rfl
  | cons c rest ih =>
    have hc : ¬ (c = sep) := by intro e; exact h (by simp [e])
    have hr : sep ∉ rest := by intro m; exact h (List.mem_cons_of_mem _ m)
    simp [splitOn1, hc, ih hr]

theorem splitOn1_append (sep : Char) (k v : List Char) (hk : sep ∉ k) :
    splitOn1 sep (k ++ sep :: v) = k :: splitOn1 sep v := by
  induction k with
  | nil => simp [splitOn1]
  | cons c rest ih =>
    have hc : ¬ (c = sep) := by intro e; exact hk (by simp [e])
    have hr : sep ∉ rest := by intro m; exact hk (List.mem_cons_of_mem _ m)
    simp [splitOn1, hc, ih hr]

theorem dictGet_dictSet_self {κ α : Type} [DecidableEq κ] (d : List (κ × α))
    (k : κ) (v : α) : dictGet (dictSet d k v) k = some v := by
  induction d with
  | nil => simp [dictSet, dictGet]
  | cons p rest ih =>
    obtain ⟨k0, v0⟩ := p
    by_cases h : k0 = k
    · simp [dictSet, dictGet, h]
    · simp [dictSet, dictGet, h, ih]

theorem RAM.step_of_no_colon (d : List (String × Int)) (y : List Char)
    (h : ':' ∉ y) : RAM.step d y = .error () := by
  simp [RAM.step, splitOn1_of_not_mem _ _ h]

theorem RAM.go_error_of_bad (lines : List String) (acc : List (String × Int))
    (y : String) (hm : y ∈ lines) (hc : ':' ∉ y.data) :
    (RAM.go lines acc).1 = .error () := by
  induction lines generalizing acc with
  | nil => cases hm
  | cons z rest ih =>
    rcases List.mem_cons.mp hm with rfl | hm2
    · simp [RAM.go, RAM.step_of_no_colon acc y.data hc]
    · cases hstep : RAM.step acc z.data with
      | error e => cases e; simp [RAM.go, hstep]
      | ok acc2 =>
        simp only [RAM.go, hstep]
        exact ih acc2 hm2

theorem RAM.go_rem_of_ok (lines : List String) (acc r : List (String × Int))
    (rem : List String) (h : RAM.go lines acc = (.ok r, rem)) : rem = [] := by
  induction lines generalizing acc with
  | nil =>
    simp only [RAM.go] at h
    injection h with h1 h2
    exact h2.symm
  | cons z rest ih =>
    cases hstep : RAM.step acc z.data with
    | error e =>
      rw [RAM.go, hstep] at h
      exact absurd (congrArg Prod.fst h) (by simp)
    | ok acc2 =>
      rw [RAM.go, hstep] at h
      exact ih acc2 h

theorem CPU.fill_ok (fuel : Nat) :
    ∀ (pool : List (List (List Char))) (k : Nat) (rec : List (String × String)),
    (∀ inf ∈ pool, inf.headI = [] ∨ 2 ≤ inf.length) →
    ∃ r p, CPU.fill fuel pool k rec = .ok (r, p) ∧
      ∀ inf ∈ p, inf.headI = [] ∨ 2 ≤ inf.length := by
  induction fuel with
  | zero => intro pool k rec h; exact ⟨rec, pool, rfl, h⟩
  | succ fuel ih =>
    intro pool k rec h
    cases hk : pool.get? k with
    | none =>
      refine ⟨rec, pool, ?_, h⟩
      simp [CPU.fill, ← List.get?_eq_getElem?, hk]
    | some inf =>
      by_cases hh : inf.headI = []
      · refine ⟨rec, pool, ?_, h⟩
        simp [CPU.fill, ← List.get?_eq_getElem?, hk, hh]
      · have hmem : inf ∈ pool := List.get?_mem hk
        rcases h inf hmem with h1 | h2
        · exact absurd h1 hh
        · obtain ⟨a, b, t, rfl⟩ : ∃ a b t, inf = a :: b :: t := by
            match inf, h2 with
            | a :: b :: t, _ => exact ⟨a, b, t, rfl⟩
          have ha : ¬ (a = []) := by simpa [List.headI] using hh
          have hred : CPU.fill (fuel + 1) pool k rec =
              CPU.fill fuel (pool.erase (a :: b :: t)) (k + 1)
                (dictSet rec ⟨pyLstrip (lowerL a)⟩ ⟨b⟩) := by
            simp [CPU.fill, ← List.get?_eq_getElem?, hk, ha]
          rw [hred]
          exact ih _ _ _ (fun inf2 hm2 => h inf2 (List.mem_of_mem_erase hm2))

theorem CPU.loop_ok (n : Nat) :
    ∀ pool acc, (∀ inf ∈ pool, inf.headI = [] ∨ 2 ≤ inf.length) →
    ∃ l, CPU.loop n pool acc = .ok l := by
  induction n with
  | zero => intro pool acc _; exact ⟨acc, rfl⟩
  | succ n ih =>
    intro pool acc h
    obtain ⟨r, p, hfill, hp⟩ := CPU.fill_ok (pool.length + 1) pool 0 [] h
    obtain ⟨l, hl⟩ := ih p (acc ++ [r]) hp
    refine ⟨l, ?_⟩
    simp only [CPU.loop, hfill]
    exact hl

theorem CPU.loop_length (n : Nat) :
    ∀ pool acc l, CPU.loop n pool acc = .ok l → l.length = acc.length + n := by
  induction n with
  | zero =>
    intro pool acc l h
    simp only [CPU.loop] at h
    injection h with h1
    simp [← h1]
  | succ n ih =>
    intro pool acc l h
    simp only [CPU.loop] at h
    cases hfill : CPU.fill (pool.length + 1) pool 0 [] with
    | error e => rw [hfill] at h; cases h
    | ok rp =>
      obtain ⟨r, p⟩ := rp
      rw [hfill] at h
      have hlen := ih p (acc ++ [r]) l h
      simp at hlen
      omega

/-! ### Claim theorems -/

/-- C1: the claim states that a raw block with exactly two well-formed
logical records (same two keys, records separated by a blank line) groups
into two records, each holding both keys with the values of its own span.
The code violates this: `infs.remove(inf)` inside `for inf in infs` makes
the iterator skip the element after every removed one, so on the block
`processor: 0 / b: 2 / <blank> / processor: 1 / b: 3` the first record
only receives `processor = 0`, the second mixes both spans
(`b = 2`, `processor = 1`), and the value `3` is lost entirely. -/
theorem c1_cpu_info_misgroups_two_records :
    CPU.info "processor\t: 0\nb\t: 2\n\nprocessor\t: 1\nb\t: 3\n\n" =
      .ok [[("processor", "0")], [("b", "2"), ("processor", "1")]] := by
  rfl

/-- C2 counterexample: the claim states a screen-marker line initializes
`screens` only when absent, so records accumulated before a second marker
survive.  In the code the marker branch does `xinfos['screens'] = []`
unconditionally: after `screen #0 /   a: 1` the screens list holds the
record `a = 1`, but running the same prefix followed by a second marker
and `  b: 2` yields a screens list holding only `b = 2` — the earlier
record was discarded, so the two lists differ. -/
theorem c2_screens_reset_counterexample :
    X.infos "screen #0\n  a: 1" =
      .ok [("screens", XVal.screens [[("a", Scalar.int 1)]])] ∧
    X.infos "screen #0\n  a: 1\nscreen #0\n  b: 2" =
      .ok [("screens", XVal.screens [[("b", Scalar.int 2)]])] ∧
    ([[("a", Scalar.int 1)]] : List (List (String × Scalar))) ≠
      [[("b", Scalar.int 2)]] :=
  ⟨rfl, rfl, by decide⟩

/-- C2 amended: processing a screen-marker line sets the current screen
index to the parsed digits and ALWAYS resets the `screens` key to an empty
sequence, whether or not the key already exists; per-screen records
accumulated before a later marker are therefore discarded, not retained. -/
theorem c2_screen_marker_always_resets (st : X.State) (x : List Char)
    (caps : List (Nat × Nat × Nat)) (hscr : reMatch screenRe x = some caps)
    (hdet : reMatch scrdetailsRe x = none) :
    ∃ st2, X.step st x = .ok st2 ∧
      dictGet st2.xinfos "screens" = some (XVal.screens []) ∧
      st2.curr = digitsToNat (capChars x caps 1) := by
  cases hgen : reMatch genericRe x with
  | none =>
    refine ⟨⟨dictSet st.xinfos "screens" (XVal.screens []),
             digitsToNat (capChars x caps 1)⟩, ?_, dictGet_dictSet_self _ _ _, rfl⟩
    simp only [X.step, hgen, hscr, hdet]
  | some caps0 =>
    refine ⟨⟨dictSet (dictSet st.xinfos (capStr x caps0 1)
               (XVal.scalar (coerce (capChars x caps0 2)))) "screens" (XVal.screens []),
             digitsToNat (capChars x caps 1)⟩, ?_, dictGet_dictSet_self _ _ _, rfl⟩
    simp only [X.step, hgen, hscr, hdet]

/-- C2 witness: the amended theorem applied to the line `screen #3` on a
state already holding a top-level key. -/
theorem c2_screen_marker_always_resets_witness :
    reMatch screenRe "screen #3".data = some [(1, 8, 9)] ∧
    reMatch scrdetailsRe "screen #3".data = none ∧
    ∃ st2, X.step ⟨[("name of display", XVal.scalar (Scalar.str ":0"))], 0⟩
        "screen #3".data = .ok st2 ∧
      dictGet st2.xinfos "screens" = some (XVal.screens []) ∧
      st2.curr = digitsToNat (capChars "screen #3".data [(1, 8, 9)] 1) :=
  ⟨by decide, by decide,
   c2_screen_marker_always_resets _ _ _ (by decide) (by decide)⟩

/-- C3 counterexample: the claim states a non-numeric value is preserved
verbatim as text ("never lost or rejected").  The code has no fallback:
`int(x[1].lstrip().replace(' kB', ''))` raises `ValueError` on the line
`memtotal: zip`, so the parse returns an error and no mapping at all. -/
theorem c3_ram_nonnumeric_value_errors :
    (RAM.info ["memtotal: zip"]).1 = .error () := by
  rfl

/-- C3 amended: for a line `<key>:<value>` (no further colon in either
part), the output maps the lower-cased key to the integer obtained from
the value after `lstrip()` and deletion of the `' kB'` occurrences — when
that text parses as an integer; otherwise the parse raises (fatally), with
no string fallback. -/
theorem c3_ram_value_coercion (d : List (String × Int)) (k v : List Char)
    (hk : ':' ∉ k) (hv : ':' ∉ v) :
    (∀ n : Int, pyInt? (removeKB (pyLstrip v)) = some n →
      RAM.step d (k ++ ':' :: v) = .ok (dictSet d ⟨lowerL k⟩ n)) ∧
    (pyInt? (removeKB (pyLstrip v)) = none →
      RAM.step d (k ++ ':' :: v) = .error ()) := by
  have hsplit : splitOn1 ':' (k ++ ':' :: v) = [k, v] := by
    rw [splitOn1_append _ _ _ hk, splitOn1_of_not_mem _ _ hv]
  constructor
  · intro n hn
    simp [RAM.step, hsplit, hn]
  · intro hn
    simp [RAM.step, hsplit, hn]

/-- C3 witness: the amended theorem applied to `memtotal: 123 kB`,
producing the integer 123 under the lower-cased key. -/
theorem c3_ram_value_coercion_witness :
    ':' ∉ "MemTotal".data ∧ ':' ∉ " 123 kB".data ∧
    pyInt? (removeKB (pyLstrip " 123 kB".data)) = some 123 ∧
    RAM.step [] ("MemTotal".data ++ ':' :: " 123 kB".data) =
      .ok [("memtotal", 123)] :=
  ⟨by decide, by decide, by decide,
   (c3_ram_value_coercion [] "MemTotal".data " 123 kB".data
     (by decide) (by decide)).1 123 (by decide)⟩

/-- C4 counterexample: the claim states the example line yields
`rev = "04"`.  The pattern `\((.*)\)` captures the whole contents of the
trailing parenthesised group, including the literal `rev ` prefix, so the
record's `rev` field is `"rev 04"`, not `"04"`. -/
theorem c4_lspci_rev_counterexample :
    System.lspci "00:02.0 VGA compatible controller: Intel Corporation Device (rev 04)" ≠
      [⟨"00:02.0", "VGA compatible controller", "Intel Corporation Device", "04"⟩] := by
  decide

/-- C4 amended: the example line yields the record with `id`, `type` and
`name` as claimed and `rev` equal to the full contents of the trailing
parenthesised group, here `"rev 04"`. -/
theorem c4_lspci_rev_full_group :
    System.lspci "00:02.0 VGA compatible controller: Intel Corporation Device (rev 04)" =
      [⟨"00:02.0", "VGA compatible controller", "Intel Corporation Device", "rev 04"⟩] := by
  rfl

/-- C7: on empty input every parser returns its empty structure without a
fault: RAM.info the empty mapping, CPU.count 0 and CPU.info the empty
sequence, System.lspci the empty sequence, X.infos the empty mapping. -/
theorem c7_empty_input_empty_structures :
    RAM.info [] = (.ok [], []) ∧ CPU.count "" = 0 ∧ CPU.info "" = .ok [] ∧
    System.lspci "" = [] ∧ X.infos "" = .ok [] :=
  ⟨rfl, rfl, rfl, rfl, rfl⟩

/-- C5 counterexample: the claim states every parse operation called twice
on the same source returns equal results.  `RAM.__init__` stores an open
file object and `RAM.info` iterates it, so the first call exhausts the
iterator: on a one-line report the first call returns the mapping
`memtotal = 5` while the second returns the empty mapping. -/
theorem c5_ram_second_call_differs :
    (RAM.info ["memtotal: 5"]).1 = .ok [("memtotal", 5)] ∧
    (RAM.info (RAM.info ["memtotal: 5"]).2).1 = .ok [] ∧
    ([(("memtotal" : String), (5 : Int))] : List (String × Int)) ≠ [] :=
  ⟨rfl, rfl, by decide⟩

/-- C5 amended: CPU.info (and likewise the purely functional System.lspci
and X.infos) is a function of the retained text, so a repeated call agrees
with the first; RAM.info is NOT idempotent: a successful call leaves the
retained file iterator exhausted, and the second call returns the empty
mapping. -/
theorem c5_idempotence_amended (st : List String) (r : List (String × Int))
    (rem : List String) (h : RAM.info st = (.ok r, rem)) :
    RAM.info rem = (.ok [], []) ∧
    ∀ raw : String, (CPU.call (CPU.call raw).2).1 = (CPU.call raw).1 := by
  have hnil : rem = [] := RAM.go_rem_of_ok st [] r rem h
  subst hnil
  exact ⟨rfl, fun _ => rfl⟩

/-- C5 witness: the amended theorem applied after a successful first call
on a one-line report. -/
theorem c5_idempotence_amended_witness :
    RAM.info ["memtotal: 7"] = (.ok [("memtotal", 7)], []) ∧
    (RAM.info [] = (.ok [], []) ∧
      ∀ raw : String, (CPU.call (CPU.call raw).2).1 = (CPU.call raw).1) :=
  ⟨rfl, c5_idempotence_amended ["memtotal: 7"] [("memtotal", 7)] [] rfl⟩

/-- C6 counterexample: the claim states CPU.info never raises on malformed
input.  A consumed non-blank line without the `': '` separator makes
`inf[1]` raise `IndexError`: here the first pool entry is `['bad']`, whose
key is non-empty, so the parse errors. -/
theorem c6_cpu_info_raises :
    CPU.info "bad\nprocessor\t: 0\n\n\n" = .error () := by
  rfl

/-- C6 amended: CPU.info degrades silently (returns without raising) only
on inputs whose processed lines are each blank or contain the `': '`
separator; a consumed non-blank line without it raises `IndexError`. -/
theorem c6_cpu_info_ok_of_wellformed (raw : String)
    (h : ∀ line ∈ splitOn1 '\n' (raw.data.filter (fun c => c ≠ '\t')),
      line = [] ∨ 2 ≤ (splitOnPair ':' ' ' line).length) :
    ∃ l, CPU.info raw = .ok l := by
  unfold CPU.info
  apply CPU.loop_ok
  intro inf hm
  unfold CPU.infs at hm
  have hm2 := List.dropLast_subset _ (List.dropLast_subset _ hm)
  obtain ⟨line, hline, rfl⟩ := List.mem_map.mp hm2
  rcases h line hline with rfl | h2
  · left; rfl
  · right; exact h2

/-- C6 witness: the amended theorem applied to a well-formed one-core
block. -/
theorem c6_cpu_info_ok_of_wellformed_witness :
    (∀ line ∈ splitOn1 '\n' ("processor\t: 1\n\n\n".data.filter (fun c => c ≠ '\t')),
      line = [] ∨ 2 ≤ (splitOnPair ':' ' ' line).length) ∧
    ∃ l, CPU.info "processor\t: 1\n\n\n" = .ok l :=
  ⟨by decide, c6_cpu_info_ok_of_wellformed _ (by decide)⟩

/-- C8: a line without a colon is fatal for RAM.info: `y.split(':')` has a
single element, `x[1]` raises `IndexError`, and the call propagates the
error, returning no mapping (the claim holds; note the same happens even
for empty lines). -/
theorem c8_ram_fatal_on_colonless (lines : List String) (y : String)
    (hm : y ∈ lines) (_hne : y.data ≠ []) (hc : ':' ∉ y.data) :
    (RAM.info lines).1 = .error () :=
  RAM.go_error_of_bad lines [] y hm hc

/-- C8 witness: a report whose second line has no colon errors as a
whole, although its first line is well-formed. -/
theorem c8_ram_fatal_on_colonless_witness :
    ("nocolonhere" ∈ ["memtotal: 3", "nocolonhere"]) ∧
    "nocolonhere".data ≠ [] ∧ ':' ∉ "nocolonhere".data ∧
    (RAM.info ["memtotal: 3", "nocolonhere"]).1 = .error () :=
  ⟨by decide, by decide, by decide,
   c8_ram_fatal_on_colonless ["memtotal: 3", "nocolonhere"] "nocolonhere"
     (by decide) (by decide) (by decide)⟩

/-- C9 counterexample: the claim states CPU.info produces a sequence of
exactly N records for EVERY input.  On this input the sentinel count is 2
but the parse raises (`inf[1]` IndexError on the line `qqq` reached while
filling the second record), so no sequence is produced at all. -/
theorem c9_cpu_info_error_counterexample :
    CPU.count "processor\t: 0\nqqq\nprocessor\t: 1\n\n\n" = 2 ∧
    CPU.info "processor\t: 0\nqqq\nprocessor\t: 1\n\n\n" = .error () :=
  ⟨rfl, rfl⟩

/-- C9 amended: whenever CPU.info returns without raising, the sequence
has exactly `CPU.count` records (one appended per loop index); a record
filled from an exhausted pool stays the empty mapping, so trailing slots
after the last consumed pair are empty. -/
theorem c9_cpu_info_length_eq_count (raw : String)
    (l : List (List (String × String))) (h : CPU.info raw = .ok l) :
    l.length = CPU.count raw ∧
    ∀ fuel k, CPU.fill fuel [] k [] = .ok ([], []) := by
  constructor
  · have hlen := CPU.loop_length (CPU.count raw) (CPU.infs raw) [] l h
    simpa using hlen
  · intro fuel k
    cases fuel with
    | zero => rfl
    | succ fuel => cases k <;> rfl

/-- C9 witness: a well-formed one-core block: the returned sequence has
length 1, equal to the sentinel count. -/
theorem c9_cpu_info_length_eq_count_witness :
    CPU.info "processor\t: 9\n\n\n" = .ok [[("processor", "9")]] ∧
    ([[("processor", "9")]] : List (List (String × String))).length =
      CPU.count "processor\t: 9\n\n\n" :=
  ⟨rfl, (c9_cpu_info_length_eq_count "processor\t: 9\n\n\n"
    [[("processor", "9")]] rfl).1⟩

/-- C10: System.uptime returns `None` when the uptime pseudo-file is
absent, and otherwise a timedelta whose seconds are the first
whitespace-separated token of the file parsed as a (decimal) float;
CPU.maxfreq returns the boolean `False` — a value distinct from any
sequence of frequencies, in particular the empty one — when the
frequency-scaling directory is absent. -/
theorem c10_uptime_maxfreq_absence :
    (∀ content : String, System.uptime false content = .ok none) ∧
    (∀ (content : String) (t : List Char) (ts : List (List Char)) (q : Rat),
      splitWs content.data = t :: ts → pyFloat? t = some q →
      System.uptime true content = .ok (some ⟨q⟩)) ∧
    (∀ (raw : String) (f : Nat → String),
      CPU.maxfreq false raw f = .ok .noSupport) ∧
    (∀ l : List Rat, CPU.MaxfreqResult.noSupport ≠ .freqs l) := by
  refine ⟨fun _ => rfl, ?_, fun _ _ => rfl,
    fun l h => CPU.MaxfreqResult.noConfusion h⟩
  intro content t ts q hsplit hq
  simp [System.uptime, hsplit, hq]

/-- C10 witness: absent file gives `None`; on `3.5 7.25` the first token
parses to 7/2 seconds; absent cpufreq directory gives `False`, which
differs from the empty sequence of frequencies. -/
theorem c10_uptime_maxfreq_absence_witness :
    System.uptime false "ignored" = .ok none ∧
    splitWs "12345 6789".data = ["12345".data, "6789".data] ∧
    pyFloat? "12345".data = some (12345 : Rat) ∧
    System.uptime true "12345 6789" = .ok (some ⟨12345⟩) ∧
    CPU.maxfreq false "" (fun _ => "") = .ok .noSupport ∧
    CPU.MaxfreqResult.noSupport ≠ .freqs [] :=
  ⟨c10_uptime_maxfreq_absence.1 "ignored",
   by decide, by decide,
   c10_uptime_maxfreq_absence.2.1 "12345 6789" "12345".data ["6789".data]
     (12345) (by decide) (by decide),
   c10_uptime_maxfreq_absence.2.2.1 "" (fun _ => ""),
   c10_uptime_maxfreq_absence.2.2.2 []⟩
